import Mathlib

/-!
# Verification of the `CampusResourceNFT` reservation ledger

Shallow embedding of the reservation core of
`src/contracts/CampusResourceNFT.sol` (the `ReservationLedger` of the spec).

Modelling conventions:
* `Account` is `Nat`; the Solidity zero address `address(0)` is `0`.
* `uint256` values (timestamps, durations, stakes) are `Nat`.  None of the
  contract's arithmetic can overflow 2^256 in the scenarios of interest and
  Solidity 0.8 reverts on overflow/underflow; in every reachable state the
  subtractions performed by the contract are in range (proved as an
  invariant), so plain `Nat` arithmetic is faithful.
* A Solidity `revert` is `Except.error`: an erroring call returns no state,
  which is exactly the EVM's rollback of the whole call.
* `block.timestamp` and `msg.value` are explicit parameters (`now`,
  `msgValue`): the clock and the value transfer are external collaborators.
* Event emission is modelled by returning the ordered list of events the
  call emits.  The actual escrow refund transfer (`reserver.call{value}`)
  is an external capability assumed to succeed; its failure would revert
  the whole call, which the `Except` model already captures.
* ERC1155 balance bookkeeping (`_mint`), meta-transactions and role
  administration are out of scope per the spec; the constructor's role
  grant is kept so `createResource`'s `onlyRole` guard has meaning.
-/

namespace CampusResourceNFT

/-- Account identifier (Solidity `address`); `0` models `address(0)`. -/
abbrev Account := Nat

/-- `MAX_RESERVATION_DURATION = 7 days` (in seconds). -/
def MAX_RESERVATION_DURATION : Nat := 604800

/-- Solidity `enum ResourceCategory`. -/
inductive ResourceCategory where
  | LAB
  | BOOK
  | INSTRUMENT
  | EQUIPMENT
  | SPACE
deriving DecidableEq, Repr

/-- Solidity `struct Resource`.  The Solidity field `exists` is a Lean
keyword-adjacent name, rendered `exists_`. -/
structure Resource where
  name : String
  category : ResourceCategory
  isReserved : Bool
  currentReserver : Account
  reservationStart : Nat
  reservationEnd : Nat
  stakedAmount : Nat
  exists_ : Bool
deriving DecidableEq, Repr

/-- The default value of a Solidity `Resource` storage slot (what
`resources[id]` reads before any write). -/
def defaultResource : Resource :=
  { name := ""
    category := .LAB
    isReserved := false
    currentReserver := 0
    reservationStart := 0
    reservationEnd := 0
    stakedAmount := 0
    exists_ := false }

/-- The contract's custom errors, plus `RequireFailed` for `require`
statements with string messages and `MissingRole` for the `onlyRole`
modifier. -/
inductive ContractError where
  | ResourceAlreadyReserved (resourceId : Nat) (currentReserver : Account)
  | ResourceNotReserved (resourceId : Nat)
  | NotResourceReserver (resourceId : Nat) (caller : Account)
  | InsufficientStake (provided : Nat) (required : Nat)
  | ResourceDoesNotExist (resourceId : Nat)
  | ReservationDurationTooLong (requested : Nat) (maximum : Nat)
  | RequireFailed (message : String)
  | MissingRole (account : Account)
deriving DecidableEq, Repr

/-- The contract's events, in emission order per call. -/
inductive Event where
  | ResourceReserved (resourceId : Nat) (reserver : Account)
      (stakeAmount : Nat) (reservationEnd : Nat)
  | ResourceReleased (resourceId : Nat) (reserver : Account)
      (stakeReturned : Nat)
  | ResourceCreated (resourceId : Nat) (name : String)
      (category : ResourceCategory)
  | ReservationExpired (resourceId : Nat) (previousReserver : Account)
deriving DecidableEq, Repr

/-- The contract's storage: mappings are total functions (Solidity mappings
read the default value at unwritten keys), `RESERVATION_STAKE` is the
immutable set in the constructor, and `hasResourceManagerRole` models the
`RESOURCE_MANAGER_ROLE` membership of `AccessControl`. -/
structure LedgerState where
  reservationStake : Nat
  resources : Nat → Resource
  totalStakedByUser : Account → Nat
  reservationHistory : Nat → List Account
  resourceIdCounter : Nat
  hasResourceManagerRole : Account → Bool

/-- The constructor: requires a positive stake, grants the manager role to
the deployer, all storage at defaults. -/
def initialState (deployer : Account) (reservationStake : Nat) : LedgerState :=
  { reservationStake := reservationStake
    resources := fun _ => defaultResource
    totalStakedByUser := fun _ => 0
    reservationHistory := fun _ => []
    resourceIdCounter := 0
    hasResourceManagerRole := fun a => a == deployer }

/-- `createResource(name, category, initialSupply, recipient)`.
`_mint` is out-of-scope token accounting and is not part of the ledger
state; the requires and the sequential id allocation are as in the
source. -/
def createResource (s : LedgerState) (sender : Account) (name : String)
    (category : ResourceCategory) (initialSupply : Nat) (recipient : Account) :
    Except ContractError (LedgerState × Nat × List Event) :=
  if ¬ s.hasResourceManagerRole sender then
    .error (.MissingRole sender)
  else if name = "" then
    .error (.RequireFailed "Name cannot be empty")
  else if initialSupply = 0 then
    .error (.RequireFailed "Initial supply must be greater than zero")
  else if recipient = 0 then
    .error (.RequireFailed "Invalid recipient address")
  else
    let resourceId := s.resourceIdCounter
    let s' : LedgerState :=
      { s with
        resourceIdCounter := s.resourceIdCounter + 1
        resources := Function.update s.resources resourceId
          { name := name
            category := category
            isReserved := false
            currentReserver := 0
            reservationStart := 0
            reservationEnd := 0
            stakedAmount := 0
            exists_ := true } }
    .ok (s', resourceId, [.ResourceCreated resourceId name category])

/-- `_autoReleaseExpiredReservation(resourceId)`: clears the stored record,
decrements the former holder's stake total, refunds (external transfer)
and emits `ReservationExpired`. -/
def autoReleaseExpiredReservation (s : LedgerState) (resourceId : Nat) :
    LedgerState × List Event :=
  let resource := s.resources resourceId
  let previousReserver := resource.currentReserver
  let stakeToReturn := resource.stakedAmount
  let s' : LedgerState :=
    { s with
      resources := Function.update s.resources resourceId
        { resource with
          isReserved := false
          currentReserver := 0
          reservationStart := 0
          reservationEnd := 0
          stakedAmount := 0 }
      totalStakedByUser := Function.update s.totalStakedByUser previousReserver
        (s.totalStakedByUser previousReserver - stakeToReturn) }
  (s', [.ReservationExpired resourceId previousReserver])

/-- Whether the stored record is an expired-but-uncleared reservation at
`now` (the guard of the lazy auto-release in `reserveResource`, lines
248–250 of the source). -/
def hasExpiredReservation (s : LedgerState) (resourceId : Nat) (now : Nat) : Bool :=
  let resource := s.resources resourceId
  resource.isReserved && decide (resource.reservationEnd ≤ now)

/-- The intermediate state of `reserveResource`'s success path after the
optional lazy auto-release (source lines 247–250). -/
def reservePreState (s : LedgerState) (resourceId : Nat) (now : Nat) :
    LedgerState :=
  if hasExpiredReservation s resourceId now then
    (autoReleaseExpiredReservation s resourceId).1
  else s

/-- The write performed by lines 252–263 of the source: the new
reservation record, the stake-total increment and the history append. -/
def installReservation (s1 : LedgerState) (sender : Account) (msgValue : Nat)
    (resourceId : Nat) (duration : Nat) (now : Nat) : LedgerState :=
  { s1 with
    resources := Function.update s1.resources resourceId
      { s1.resources resourceId with
        isReserved := true
        currentReserver := sender
        reservationStart := now
        reservationEnd := now + duration
        stakedAmount := msgValue }
    totalStakedByUser := Function.update s1.totalStakedByUser sender
      (s1.totalStakedByUser sender + msgValue)
    reservationHistory := Function.update s1.reservationHistory resourceId
      (s1.reservationHistory resourceId ++ [sender]) }

/-- The state written by the success path of `reserveResource` (source
lines 247–263): optional lazy auto-release, then the new reservation
record, the stake-total increment and the history append. -/
def reserveSuccState (s : LedgerState) (sender : Account) (msgValue : Nat)
    (resourceId : Nat) (duration : Nat) (now : Nat) : LedgerState :=
  installReservation (reservePreState s resourceId now) sender msgValue
    resourceId duration now

/-- The events emitted by the success path of `reserveResource`:
`ReservationExpired` (if the lazy auto-release fired) before
`ResourceReserved`. -/
def reserveSuccEvents (s : LedgerState) (sender : Account) (msgValue : Nat)
    (resourceId : Nat) (duration : Nat) (now : Nat) : List Event :=
  (if hasExpiredReservation s resourceId now then
      (autoReleaseExpiredReservation s resourceId).2
    else []) ++
    [.ResourceReserved resourceId sender msgValue (now + duration)]

/-- `reserveResource(resourceId, duration)` with `msg.sender = sender`,
`msg.value = msgValue`, `block.timestamp = now`.  The validation checks,
their order, the lazy auto-release of an expired reservation, the state
update and the history append follow the source line by line; the success
write is factored into `reserveSuccState`/`reserveSuccEvents`. -/
def reserveResource (s : LedgerState) (sender : Account) (msgValue : Nat)
    (resourceId : Nat) (duration : Nat) (now : Nat) :
    Except ContractError (LedgerState × List Event) :=
  let resource := s.resources resourceId
  if resource.exists_ = false then
    .error (.ResourceDoesNotExist resourceId)
  else if MAX_RESERVATION_DURATION < duration then
    .error (.ReservationDurationTooLong duration MAX_RESERVATION_DURATION)
  else if msgValue < s.reservationStake then
    .error (.InsufficientStake msgValue s.reservationStake)
  else if resource.isReserved = true ∧ now < resource.reservationEnd then
    .error (.ResourceAlreadyReserved resourceId resource.currentReserver)
  else
    .ok (reserveSuccState s sender msgValue resourceId duration now,
      reserveSuccEvents s sender msgValue resourceId duration now)

/-- The state written by the success path of `releaseResource` (source
lines 289–301): the record cleared to "available" and the reserver's
stake total decremented by the staked amount. -/
def releaseSuccState (s : LedgerState) (resourceId : Nat) : LedgerState :=
  let resource := s.resources resourceId
  let reserver := resource.currentReserver
  let stakeToReturn := resource.stakedAmount
  { s with
    resources := Function.update s.resources resourceId
      { resource with
        isReserved := false
        currentReserver := 0
        reservationStart := 0
        reservationEnd := 0
        stakedAmount := 0 }
    totalStakedByUser := Function.update s.totalStakedByUser reserver
      (s.totalStakedByUser reserver - stakeToReturn) }

/-- `releaseResource(resourceId)` with `msg.sender = sender`.  Note the
source reverts `NotResourceReserver(resourceId, _msgSender())`: the error
carries the caller, not the stored reserver.  No timestamp is read:
release succeeds for the stored reserver even after logical expiry. -/
def releaseResource (s : LedgerState) (sender : Account) (resourceId : Nat) :
    Except ContractError (LedgerState × Nat × List Event) :=
  let resource := s.resources resourceId
  if resource.exists_ = false then
    .error (.ResourceDoesNotExist resourceId)
  else if resource.isReserved = false then
    .error (.ResourceNotReserved resourceId)
  else if resource.currentReserver ≠ sender then
    .error (.NotResourceReserver resourceId sender)
  else
    .ok (releaseSuccState s resourceId, resource.stakedAmount,
      [.ResourceReleased resourceId resource.currentReserver resource.stakedAmount])

/-- `getResource(resourceId)`: the only view that reverts on a missing
resource. -/
def getResource (s : LedgerState) (resourceId : Nat) :
    Except ContractError Resource :=
  if (s.resources resourceId).exists_ = false then
    .error (.ResourceDoesNotExist resourceId)
  else
    .ok (s.resources resourceId)

/-- `isResourceReserved(resourceId)` at `block.timestamp = now`. -/
def isResourceReserved (s : LedgerState) (resourceId : Nat) (now : Nat) : Bool :=
  let resource := s.resources resourceId
  resource.isReserved && decide (now < resource.reservationEnd)

/-- `getReservationHistory(resourceId)`. -/
def getReservationHistory (s : LedgerState) (resourceId : Nat) : List Account :=
  s.reservationHistory resourceId

/-- `getCurrentReserver(resourceId)` at `now`; `0` is `address(0)`
("none"). -/
def getCurrentReserver (s : LedgerState) (resourceId : Nat) (now : Nat) : Account :=
  let resource := s.resources resourceId
  if resource.isReserved = true ∧ now < resource.reservationEnd then
    resource.currentReserver
  else 0

/-- `getRemainingReservationTime(resourceId)` at `now`. -/
def getRemainingReservationTime (s : LedgerState) (resourceId : Nat) (now : Nat) :
    Nat :=
  let resource := s.resources resourceId
  if resource.isReserved = true ∧ now < resource.reservationEnd then
    resource.reservationEnd - now
  else 0

/-- One successful contract call (the three mutating entry points). -/
inductive Step : LedgerState → LedgerState → Prop where
  | create {s : LedgerState} {sender : Account} {name : String}
      {category : ResourceCategory} {initialSupply : Nat} {recipient : Account}
      {s' : LedgerState} {rid : Nat} {evs : List Event}
      (h : createResource s sender name category initialSupply recipient
        = .ok (s', rid, evs)) : Step s s'
  | reserve {s : LedgerState} {sender : Account} {msgValue resourceId duration now : Nat}
      {s' : LedgerState} {evs : List Event}
      (h : reserveResource s sender msgValue resourceId duration now
        = .ok (s', evs)) : Step s s'
  | release {s : LedgerState} {sender : Account} {resourceId : Nat}
      {s' : LedgerState} {refund : Nat} {evs : List Event}
      (h : releaseResource s sender resourceId = .ok (s', refund, evs)) :
      Step s s'

/-- Reachable ledger states: a freshly constructed contract (the
constructor requires a positive stake) followed by any sequence of
successful calls.  Erroring calls revert and do not change state. -/
inductive Reachable : LedgerState → Prop where
  | init (deployer : Account) (reservationStake : Nat)
      (h : 0 < reservationStake) :
      Reachable (initialState deployer reservationStake)
  | step {s s' : LedgerState} (hs : Reachable s) (hstep : Step s s') :
      Reachable s'

/-- Contribution of one stored resource record to account `a`'s stake
total: its staked amount when `a` holds its (possibly expired, uncleared)
reservation record, else `0`. -/
def reservedStakeFor (a : Account) (r : Resource) : Nat :=
  if r.isReserved = true ∧ r.currentReserver = a then r.stakedAmount else 0

/-- Sum of `staked` over all resources whose stored reservation record
names `a` as reserver.  Only ids below the counter can carry a record
(proved as part of the ledger invariant), so the range sum is the sum over
all resources. -/
def stakeSum (s : LedgerState) (a : Account) : Nat :=
  (Finset.range s.resourceIdCounter).sum fun id => reservedStakeFor a (s.resources id)

/-- The ledger invariant: (1) a slot that was never created holds the
default record; (2) ids at or above the counter were never created;
(3) every account's stored stake total equals the sum of `staked` over
the resources whose stored (possibly expired, uncleared) reservation
record names it as reserver; (4) every stored reservation record has
`reservationStart ≤ reservationEnd` and spans at most
`MAX_RESERVATION_DURATION`. -/
def GoodState (s : LedgerState) : Prop :=
  (∀ id, (s.resources id).exists_ = false → s.resources id = defaultResource) ∧
  (∀ id, s.resourceIdCounter ≤ id → (s.resources id).exists_ = false) ∧
  (∀ a, s.totalStakedByUser a = stakeSum s a) ∧
  (∀ id, (s.resources id).isReserved = true →
    (s.resources id).reservationStart ≤ (s.resources id).reservationEnd ∧
    (s.resources id).reservationEnd - (s.resources id).reservationStart
      ≤ MAX_RESERVATION_DURATION)

/-! ## Concrete executions

A deployment with `RESERVATION_STAKE = 10^17` wei (0.1 ether, the stake of
the spec's scenarios); accounts: deployer `9`, user A `1`, user B `2`,
user C `3`.  `okState` projects the post-state of a call known to
succeed. -/

/-- Post-state of a successful call (`dflt` is returned on error and never
used in the scenarios below). -/
def okState {α : Type} (r : Except ContractError (LedgerState × α))
    (dflt : LedgerState) : LedgerState :=
  match r with
  | .ok p => p.1
  | .error _ => dflt

/-- 0.1 ether in wei: the deployment's `RESERVATION_STAKE` and the stake
used in the scenarios. -/
def demoStake : Nat := 100000000000000000

/-- Freshly deployed contract. -/
def demoS0 : LedgerState := initialState 9 demoStake

/-- After the deployer creates resource 0. -/
def demoS1 : LedgerState :=
  okState (createResource demoS0 9 "Physics Lab A" .LAB 1 9) demoS0

/-- After user A (= `1`) reserves resource 0 for 3600 s at `t = 0`. -/
def demoS2 : LedgerState :=
  okState (reserveResource demoS1 1 demoStake 0 3600 0) demoS1

/-- After user B (= `2`) reserves resource 0 at `t = 3601` (A's
reservation is expired and lazily cleared). -/
def demoS3 : LedgerState :=
  okState (reserveResource demoS2 2 demoStake 0 3600 3601) demoS2

/-- After user A releases resource 0 (from `demoS2`). -/
def demoR2 : LedgerState := okState (releaseResource demoS2 1 0) demoS2

/-- After user B reserves resource 0 at `t = 10` (from `demoR2`). -/
def demoR3 : LedgerState :=
  okState (reserveResource demoR2 2 demoStake 0 3600 10) demoR2

/-- After user A re-reserves resource 0 at `t = 4000` from `demoS2`: A's
own expired reservation is lazily cleared and refunded during A's new
reserve. -/
def demoC4b : LedgerState :=
  okState (reserveResource demoS2 1 demoStake 0 3600 4000) demoS2

/-- After user A releases resource 0 (from `demoC4b`). -/
def demoC4c : LedgerState := okState (releaseResource demoC4b 1 0) demoC4b

/-- After user A reserves resource 0 with duration 0 at `t = 5` (from
`demoS1`): the stored record has `reservationEnd = reservationStart`. -/
def demoZ : LedgerState :=
  okState (reserveResource demoS1 1 demoStake 0 0 5) demoS1

/-! ## Characterisation of the operations -/

theorem createResource_ok_spec {s : LedgerState} {sender : Account}
    {name : String} {category : ResourceCategory} {initialSupply : Nat}
    {recipient : Account} {s' : LedgerState} {rid : Nat} {evs : List Event}
    (h : createResource s sender name category initialSupply recipient
      = .ok (s', rid, evs)) :
    rid = s.resourceIdCounter ∧
    evs = [.ResourceCreated s.resourceIdCounter name category] ∧
    s'.reservationStake = s.reservationStake ∧
    s'.resourceIdCounter = s.resourceIdCounter + 1 ∧
    s'.resources = Function.update s.resources s.resourceIdCounter
      { name := name
        category := category
        isReserved := false
        currentReserver := 0
        reservationStart := 0
        reservationEnd := 0
        stakedAmount := 0
        exists_ := true } ∧
    s'.totalStakedByUser = s.totalStakedByUser ∧
    s'.reservationHistory = s.reservationHistory ∧
    s'.hasResourceManagerRole = s.hasResourceManagerRole := by
  simp only [createResource] at h
  split at h
  · cases h
  split at h
  · cases h
  split at h
  · cases h
  split at h
  · cases h
  simp only [Except.ok.injEq, Prod.mk.injEq] at h
  obtain ⟨hs, hr, he⟩ := h
  subst hs hr he
  exact ⟨rfl, rfl, rfl, rfl, rfl, rfl, rfl, rfl⟩

theorem reserveResource_ok_iff {s : LedgerState} {sender : Account}
    {msgValue resourceId duration now : Nat} {r : LedgerState × List Event} :
    reserveResource s sender msgValue resourceId duration now = .ok r ↔
      (s.resources resourceId).exists_ = true ∧
      duration ≤ MAX_RESERVATION_DURATION ∧
      s.reservationStake ≤ msgValue ∧
      ¬((s.resources resourceId).isReserved = true ∧
        now < (s.resources resourceId).reservationEnd) ∧
      r = (reserveSuccState s sender msgValue resourceId duration now,
        reserveSuccEvents s sender msgValue resourceId duration now) := by
  simp only [reserveResource]
  split
  case isTrue hex =>
    simp only [reduceCtorEq, false_iff]
    rintro ⟨h1, -⟩
    rw [hex] at h1
    cases h1
  case isFalse hex =>
    rw [Bool.not_eq_false] at hex
    split
    case isTrue hdur =>
      simp only [reduceCtorEq, false_iff]
      rintro ⟨-, h2, -⟩
      omega
    case isFalse hdur =>
      split
      case isTrue hstk =>
        simp only [reduceCtorEq, false_iff]
        rintro ⟨-, -, h3, -⟩
        omega
      case isFalse hstk =>
        split
        case isTrue hact =>
          simp only [reduceCtorEq, false_iff]
          rintro ⟨-, -, -, h4, -⟩
          exact h4 hact
        case isFalse hact =>
          simp only [Except.ok.injEq]
          constructor
          · intro h
            exact ⟨hex, by omega, by omega, hact, h.symm⟩
          · rintro ⟨-, -, -, -, h⟩
            exact h.symm

theorem releaseResource_ok_iff {s : LedgerState} {sender : Account}
    {resourceId : Nat} {r : LedgerState × Nat × List Event} :
    releaseResource s sender resourceId = .ok r ↔
      (s.resources resourceId).exists_ = true ∧
      (s.resources resourceId).isReserved = true ∧
      (s.resources resourceId).currentReserver = sender ∧
      r = (releaseSuccState s resourceId, (s.resources resourceId).stakedAmount,
        [.ResourceReleased resourceId (s.resources resourceId).currentReserver
          (s.resources resourceId).stakedAmount]) := by
  simp only [releaseResource]
  split
  case isTrue hex =>
    simp only [reduceCtorEq, false_iff]
    rintro ⟨h1, -⟩
    rw [hex] at h1
    cases h1
  case isFalse hex =>
    rw [Bool.not_eq_false] at hex
    split
    case isTrue hres =>
      simp only [reduceCtorEq, false_iff]
      rintro ⟨-, h2, -⟩
      rw [hres] at h2
      cases h2
    case isFalse hres =>
      rw [Bool.not_eq_false] at hres
      split
      case isTrue hown =>
        simp only [reduceCtorEq, false_iff]
        rintro ⟨-, -, h3, -⟩
        exact hown h3
      case isFalse hown =>
        rw [not_not] at hown
        simp only [Except.ok.injEq]
        constructor
        · intro h
          exact ⟨hex, hres, hown, h.symm⟩
        · rintro ⟨-, -, -, h⟩
          exact h.symm

theorem reserveResource_error_notFound {s : LedgerState} {sender : Account}
    {msgValue resourceId duration now : Nat}
    (hex : (s.resources resourceId).exists_ = false) :
    reserveResource s sender msgValue resourceId duration now
      = .error (.ResourceDoesNotExist resourceId) := by
  simp [reserveResource, hex]

theorem reserveResource_error_durationTooLong {s : LedgerState} {sender : Account}
    {msgValue resourceId duration now : Nat}
    (hex : (s.resources resourceId).exists_ = true)
    (hdur : MAX_RESERVATION_DURATION < duration) :
    reserveResource s sender msgValue resourceId duration now
      = .error (.ReservationDurationTooLong duration MAX_RESERVATION_DURATION) := by
  simp [reserveResource, hex, hdur]

theorem reserveResource_error_insufficientStake {s : LedgerState} {sender : Account}
    {msgValue resourceId duration now : Nat}
    (hex : (s.resources resourceId).exists_ = true)
    (hdur : duration ≤ MAX_RESERVATION_DURATION)
    (hstk : msgValue < s.reservationStake) :
    reserveResource s sender msgValue resourceId duration now
      = .error (.InsufficientStake msgValue s.reservationStake) := by
  simp [reserveResource, hex, hstk, Nat.not_lt.mpr hdur]

theorem reserveResource_error_alreadyReserved {s : LedgerState} {sender : Account}
    {msgValue resourceId duration now : Nat}
    (hex : (s.resources resourceId).exists_ = true)
    (hdur : duration ≤ MAX_RESERVATION_DURATION)
    (hstk : s.reservationStake ≤ msgValue)
    (hres : (s.resources resourceId).isReserved = true)
    (hnow : now < (s.resources resourceId).reservationEnd) :
    reserveResource s sender msgValue resourceId duration now
      = .error (.ResourceAlreadyReserved resourceId
          (s.resources resourceId).currentReserver) := by
  simp [reserveResource, hex, hres, hnow, Nat.not_lt.mpr hdur, Nat.not_lt.mpr hstk]

theorem releaseResource_error_notFound {s : LedgerState} {sender : Account}
    {resourceId : Nat} (hex : (s.resources resourceId).exists_ = false) :
    releaseResource s sender resourceId
      = .error (.ResourceDoesNotExist resourceId) := by
  simp [releaseResource, hex]

theorem releaseResource_error_notReserved {s : LedgerState} {sender : Account}
    {resourceId : Nat} (hex : (s.resources resourceId).exists_ = true)
    (hres : (s.resources resourceId).isReserved = false) :
    releaseResource s sender resourceId
      = .error (.ResourceNotReserved resourceId) := by
  simp [releaseResource, hex, hres]

theorem releaseResource_error_notReserver {s : LedgerState} {sender : Account}
    {resourceId : Nat} (hex : (s.resources resourceId).exists_ = true)
    (hres : (s.resources resourceId).isReserved = true)
    (hown : (s.resources resourceId).currentReserver ≠ sender) :
    releaseResource s sender resourceId
      = .error (.NotResourceReserver resourceId sender) := by
  simp [releaseResource, hex, hres, hown]

/-! ## Preservation of the ledger invariant -/

theorem sum_reservedStakeFor_update (f : Nat → Resource) (id : Nat)
    (r : Resource) (n : Nat) (hid : id < n) (a : Account) :
    (((Finset.range n).sum fun i => reservedStakeFor a (Function.update f id r i))
        + reservedStakeFor a (f id))
      = ((Finset.range n).sum fun i => reservedStakeFor a (f i))
        + reservedStakeFor a r := by
  have hmem : id ∈ Finset.range n := Finset.mem_range.mpr hid
  rw [← Finset.sum_erase_add _ _ hmem, ← Finset.sum_erase_add _ _ hmem,
    Function.update_same]
  have hcong : ((Finset.range n).erase id).sum
      (fun i => reservedStakeFor a (Function.update f id r i))
      = ((Finset.range n).erase id).sum fun i => reservedStakeFor a (f i) := by
    refine Finset.sum_congr rfl fun i hi => ?_
    rw [Function.update_noteq (Finset.ne_of_mem_erase hi)]
  rw [hcong]
  omega

theorem reservedStakeFor_of_not_reserved {a : Account} {r : Resource}
    (h : r.isReserved = false) : reservedStakeFor a r = 0 := by
  simp [reservedStakeFor, h]

theorem reservedStakeFor_of_reserved {a : Account} {r : Resource}
    (h : r.isReserved = true) :
    reservedStakeFor a r = if r.currentReserver = a then r.stakedAmount else 0 := by
  simp [reservedStakeFor, h]

theorem goodState_initial (deployer : Account) (reservationStake : Nat) :
    GoodState (initialState deployer reservationStake) := by
  refine ⟨fun id _ => rfl, fun id _ => rfl, fun a => ?_, fun id h => by cases h⟩
  simp [initialState, stakeSum]

theorem exists_of_isReserved {s : LedgerState} {id : Nat} (hg : GoodState s)
    (h : (s.resources id).isReserved = true) :
    (s.resources id).exists_ = true := by
  by_contra hex
  rw [Bool.not_eq_true] at hex
  rw [hg.1 id hex] at h
  cases h

theorem lt_counter_of_exists {s : LedgerState} {id : Nat} (hg : GoodState s)
    (h : (s.resources id).exists_ = true) : id < s.resourceIdCounter := by
  by_contra hlt
  rw [hg.2.1 id (by omega)] at h
  cases h

theorem goodState_create {s : LedgerState} {sender : Account} {name : String}
    {category : ResourceCategory} {initialSupply : Nat} {recipient : Account}
    {s' : LedgerState} {rid : Nat} {evs : List Event} (hg : GoodState s)
    (h : createResource s sender name category initialSupply recipient
      = .ok (s', rid, evs)) : GoodState s' := by
  obtain ⟨hg1, hg2, hg3, hg4⟩ := hg
  obtain ⟨-, -, -, hctr, hresr, htot, -, -⟩ := createResource_ok_spec h
  refine ⟨?_, ?_, ?_, ?_⟩
  · intro id hid
    rw [hresr] at hid ⊢
    by_cases hcase : id = s.resourceIdCounter
    · subst hcase
      rw [Function.update_same] at hid
      cases hid
    · rw [Function.update_noteq hcase] at hid ⊢
      exact hg1 id hid
  · intro id hid
    rw [hctr] at hid
    rw [hresr, Function.update_noteq (show id ≠ s.resourceIdCounter by omega)]
    exact hg2 id (by omega)
  · intro a
    rw [htot, hg3 a]
    unfold stakeSum
    rw [hctr, hresr, Finset.sum_range_succ, Function.update_same]
    rw [reservedStakeFor_of_not_reserved rfl, Nat.add_zero]
    refine (Finset.sum_congr rfl fun i hi => ?_).symm
    rw [Function.update_noteq (by have := Finset.mem_range.mp hi; omega)]
  · intro id hres
    rw [hresr] at hres ⊢
    by_cases hcase : id = s.resourceIdCounter
    · subst hcase
      rw [Function.update_same] at hres
      cases hres
    · rw [Function.update_noteq hcase] at hres ⊢
      exact hg4 id hres

theorem goodState_autoRelease {s : LedgerState} {id : Nat} (hg : GoodState s)
    (hres : (s.resources id).isReserved = true) :
    GoodState (autoReleaseExpiredReservation s id).1 := by
  have hex : (s.resources id).exists_ = true := exists_of_isReserved hg hres
  have hid : id < s.resourceIdCounter := lt_counter_of_exists hg hex
  obtain ⟨hg1, hg2, hg3, hg4⟩ := hg
  unfold autoReleaseExpiredReservation
  refine ⟨?_, ?_, ?_, ?_⟩
  · intro j hj
    simp only at hj ⊢
    by_cases hcase : j = id
    · subst hcase
      rw [Function.update_same] at hj
      simp only at hj
      rw [hex] at hj
      cases hj
    · rw [Function.update_noteq hcase] at hj ⊢
      exact hg1 j hj
  · intro j hj
    simp only at hj ⊢
    rw [Function.update_noteq (show j ≠ id by omega)]
    exact hg2 j hj
  · intro a
    simp only [stakeSum]
    have hsum := sum_reservedStakeFor_update s.resources id
      { name := (s.resources id).name
        category := (s.resources id).category
        isReserved := false
        currentReserver := 0
        reservationStart := 0
        reservationEnd := 0
        stakedAmount := 0
        exists_ := (s.resources id).exists_ } s.resourceIdCounter hid a
    rw [reservedStakeFor_of_reserved hres] at hsum
    rw [reservedStakeFor_of_not_reserved rfl, Nat.add_zero] at hsum
    have htotal := hg3 a
    have htotp := hg3 (s.resources id).currentReserver
    have hterm : reservedStakeFor (s.resources id).currentReserver (s.resources id)
        ≤ stakeSum s (s.resources id).currentReserver :=
      Finset.single_le_sum
        (f := fun i => reservedStakeFor (s.resources id).currentReserver (s.resources i))
        (fun i _ => Nat.zero_le _) (Finset.mem_range.mpr hid)
    rw [reservedStakeFor_of_reserved hres, if_pos rfl] at hterm
    unfold stakeSum at htotal htotp hterm
    by_cases hcase : a = (s.resources id).currentReserver
    · subst hcase
      rw [Function.update_same]
      rw [if_pos rfl] at hsum
      omega
    · rw [Function.update_noteq hcase]
      rw [if_neg (fun hc => hcase hc.symm), Nat.add_zero] at hsum
      omega
  · intro j hj
    simp only at hj ⊢
    by_cases hcase : j = id
    · subst hcase
      rw [Function.update_same] at hj
      cases hj
    · rw [Function.update_noteq hcase] at hj ⊢
      exact hg4 j hj

theorem reservedStakeFor_install_record {a sender : Account} {nm : String}
    {cat : ResourceCategory} {st en v : Nat} {ex : Bool} :
    reservedStakeFor a
      { name := nm
        category := cat
        isReserved := true
        currentReserver := sender
        reservationStart := st
        reservationEnd := en
        stakedAmount := v
        exists_ := ex }
      = if sender = a then v else 0 := by
  simp [reservedStakeFor]

theorem goodState_install {s1 : LedgerState} {sender : Account}
    {msgValue resourceId duration now : Nat} (hg : GoodState s1)
    (hex : (s1.resources resourceId).exists_ = true)
    (hnres : (s1.resources resourceId).isReserved = false)
    (hdur : duration ≤ MAX_RESERVATION_DURATION) :
    GoodState (installReservation s1 sender msgValue resourceId duration now) := by
  have hid : resourceId < s1.resourceIdCounter := lt_counter_of_exists hg hex
  obtain ⟨hg1, hg2, hg3, hg4⟩ := hg
  unfold installReservation
  refine ⟨?_, ?_, ?_, ?_⟩
  · intro j hj
    simp only at hj ⊢
    by_cases hcase : j = resourceId
    · subst hcase
      rw [Function.update_same] at hj
      simp only at hj
      rw [hex] at hj
      cases hj
    · rw [Function.update_noteq hcase] at hj ⊢
      exact hg1 j hj
  · intro j hj
    simp only at hj ⊢
    rw [Function.update_noteq (show j ≠ resourceId by omega)]
    exact hg2 j hj
  · intro a
    simp only [stakeSum]
    have hsum := sum_reservedStakeFor_update s1.resources resourceId
      { name := (s1.resources resourceId).name
        category := (s1.resources resourceId).category
        isReserved := true
        currentReserver := sender
        reservationStart := now
        reservationEnd := now + duration
        stakedAmount := msgValue
        exists_ := (s1.resources resourceId).exists_ }
      s1.resourceIdCounter hid a
    rw [reservedStakeFor_of_not_reserved hnres, Nat.add_zero] at hsum
    rw [reservedStakeFor_install_record] at hsum
    have htotal := hg3 a
    unfold stakeSum at htotal
    by_cases hcase : sender = a
    · subst hcase
      rw [Function.update_same]
      rw [if_pos rfl] at hsum
      omega
    · rw [Function.update_noteq (fun h => hcase h.symm)]
      rw [if_neg hcase, Nat.add_zero] at hsum
      omega
  · intro j hj
    simp only at hj ⊢
    by_cases hcase : j = resourceId
    · subst hcase
      rw [Function.update_same]
      exact ⟨Nat.le_add_right now duration, by show now + duration - now ≤ _; omega⟩
    · rw [Function.update_noteq hcase] at hj ⊢
      exact hg4 j hj

theorem goodState_reserve {s : LedgerState} {sender : Account}
    {msgValue resourceId duration now : Nat} {s' : LedgerState}
    {evs : List Event} (hg : GoodState s)
    (h : reserveResource s sender msgValue resourceId duration now
      = .ok (s', evs)) : GoodState s' := by
  rw [reserveResource_ok_iff] at h
  obtain ⟨hex, hdur, hstk, hact, hpair⟩ := h
  have hs' : s' = reserveSuccState s sender msgValue resourceId duration now :=
    congrArg Prod.fst hpair
  subst hs'
  unfold reserveSuccState reservePreState
  by_cases hexp : hasExpiredReservation s resourceId now = true
  · rw [if_pos hexp]
    have hres : (s.resources resourceId).isReserved = true := by
      unfold hasExpiredReservation at hexp
      exact (Bool.and_eq_true_iff.mp hexp).1
    have hex1 : ((autoReleaseExpiredReservation s resourceId).1.resources
        resourceId).exists_ = true := by
      unfold autoReleaseExpiredReservation
      simp only
      rw [Function.update_same]
      exact hex
    have hnres1 : ((autoReleaseExpiredReservation s resourceId).1.resources
        resourceId).isReserved = false := by
      unfold autoReleaseExpiredReservation
      simp only
      rw [Function.update_same]
    exact goodState_install (goodState_autoRelease hg hres) hex1 hnres1 hdur
  · rw [if_neg hexp]
    have hnres : (s.resources resourceId).isReserved = false := by
      by_contra hb
      rw [Bool.not_eq_false] at hb
      have hnow : ¬ now < (s.resources resourceId).reservationEnd :=
        fun hlt => hact ⟨hb, hlt⟩
      apply hexp
      unfold hasExpiredReservation
      simp only [hb, Bool.true_and, decide_eq_true_eq]
      omega
    exact goodState_install hg hex hnres hdur

theorem releaseSuccState_eq_autoRelease (s : LedgerState) (resourceId : Nat) :
    releaseSuccState s resourceId
      = (autoReleaseExpiredReservation s resourceId).1 := rfl

theorem goodState_release {s : LedgerState} {sender : Account} {resourceId : Nat}
    {s' : LedgerState} {refund : Nat} {evs : List Event} (hg : GoodState s)
    (h : releaseResource s sender resourceId = .ok (s', refund, evs)) :
    GoodState s' := by
  rw [releaseResource_ok_iff] at h
  obtain ⟨hex, hres, hown, hpair⟩ := h
  have hs' : s' = releaseSuccState s resourceId := congrArg Prod.fst hpair
  subst hs'
  rw [releaseSuccState_eq_autoRelease]
  exact goodState_autoRelease hg hres

theorem goodState_step {s s' : LedgerState} (hg : GoodState s)
    (h : Step s s') : GoodState s' := by
  cases h with
  | create h => exact goodState_create hg h
  | reserve h => exact goodState_reserve hg h
  | release h => exact goodState_release hg h

theorem reachable_goodState {s : LedgerState} (h : Reachable s) : GoodState s := by
  induction h with
  | init deployer reservationStake hstk => exact goodState_initial _ _
  | step hs hstep ih => exact goodState_step ih hstep

/-! ## Reachability of the concrete executions -/

theorem reachable_demoS0 : Reachable demoS0 :=
  Reachable.init 9 demoStake (by decide)

theorem reachable_demoS1 : Reachable demoS1 :=
  .step reachable_demoS0 (.create (show createResource demoS0 9 "Physics Lab A"
    .LAB 1 9 = .ok (demoS1, 0, [.ResourceCreated 0 "Physics Lab A" .LAB]) from rfl))

theorem reachable_demoS2 : Reachable demoS2 :=
  .step reachable_demoS1 (.reserve (show reserveResource demoS1 1 demoStake 0 3600 0
    = .ok (demoS2, [.ResourceReserved 0 1 demoStake 3600]) from rfl))

theorem reachable_demoS3 : Reachable demoS3 :=
  .step reachable_demoS2 (.reserve (show reserveResource demoS2 2 demoStake 0 3600 3601
    = .ok (demoS3, [.ReservationExpired 0 1, .ResourceReserved 0 2 demoStake 7201])
    from rfl))

theorem reachable_demoR2 : Reachable demoR2 :=
  .step reachable_demoS2 (.release (show releaseResource demoS2 1 0
    = .ok (demoR2, demoStake, [.ResourceReleased 0 1 demoStake]) from rfl))

theorem reachable_demoZ : Reachable demoZ :=
  .step reachable_demoS1 (.reserve (show reserveResource demoS1 1 demoStake 0 0 5
    = .ok (demoZ, [.ResourceReserved 0 1 demoStake 5]) from rfl))

/-! ## The claims -/

/-- C1: in every reachable ledger state, for every account, the stored
`totalStakedByUser` entry equals the sum of `stakedAmount` over all
resources whose stored (possibly logically-expired but uncleared)
reservation record names that account as `currentReserver`; the second
conjunct shows the `Finset.range`-bounded `stakeSum` indeed covers all
resources, because slots at or above the id counter carry no reservation
record.  Preservation by every `createResource`, `reserveResource`
(including its lazy-expiry clearing step) and `releaseResource` call is
exactly closure of `Reachable` under `Step`. -/
theorem stake_total_invariant {s : LedgerState} (hs : Reachable s) :
    (∀ a, s.totalStakedByUser a = stakeSum s a) ∧
    (∀ id, s.resourceIdCounter ≤ id → (s.resources id).isReserved = false) := by
  have hg := reachable_goodState hs
  refine ⟨hg.2.2.1, fun id hid => ?_⟩
  rw [hg.1 id (hg.2.1 id hid)]
  rfl

/-- C1 witness: the invariant evaluated in the concrete state `demoS3`
(two reserves with an intervening lazy expiry). -/
theorem stake_total_invariant_witness :
    demoS3.totalStakedByUser 2 = stakeSum demoS3 2 ∧
    demoS3.totalStakedByUser 1 = stakeSum demoS3 1 :=
  ⟨(stake_total_invariant reachable_demoS3).1 2,
   (stake_total_invariant reachable_demoS3).1 1⟩

/-- C2: `reserveResource` evaluates its preconditions in the fixed
short-circuit order existence, duration, stake, activity; the first
failing check determines the error, and when all pass the call succeeds
(the boundary cases `duration = MAX_RESERVATION_DURATION` and
`msgValue = RESERVATION_STAKE` fall in the succeeding branches).  State is
only mutated on the success branch — an error returns no state in this
model, mirroring the EVM revert. -/
theorem reserve_check_order (s : LedgerState) (sender : Account)
    (msgValue resourceId duration now : Nat) :
    ((s.resources resourceId).exists_ = false →
      reserveResource s sender msgValue resourceId duration now
        = .error (.ResourceDoesNotExist resourceId)) ∧
    ((s.resources resourceId).exists_ = true →
      MAX_RESERVATION_DURATION < duration →
      reserveResource s sender msgValue resourceId duration now
        = .error (.ReservationDurationTooLong duration MAX_RESERVATION_DURATION)) ∧
    ((s.resources resourceId).exists_ = true →
      duration ≤ MAX_RESERVATION_DURATION →
      msgValue < s.reservationStake →
      reserveResource s sender msgValue resourceId duration now
        = .error (.InsufficientStake msgValue s.reservationStake)) ∧
    ((s.resources resourceId).exists_ = true →
      duration ≤ MAX_RESERVATION_DURATION →
      s.reservationStake ≤ msgValue →
      (s.resources resourceId).isReserved = true →
      now < (s.resources resourceId).reservationEnd →
      reserveResource s sender msgValue resourceId duration now
        = .error (.ResourceAlreadyReserved resourceId
            (s.resources resourceId).currentReserver)) ∧
    ((s.resources resourceId).exists_ = true →
      duration ≤ MAX_RESERVATION_DURATION →
      s.reservationStake ≤ msgValue →
      ¬((s.resources resourceId).isReserved = true ∧
        now < (s.resources resourceId).reservationEnd) →
      reserveResource s sender msgValue resourceId duration now
        = .ok (reserveSuccState s sender msgValue resourceId duration now,
            reserveSuccEvents s sender msgValue resourceId duration now)) :=
  ⟨fun hex => reserveResource_error_notFound hex,
   fun hex hdur => reserveResource_error_durationTooLong hex hdur,
   fun hex hdur hstk => reserveResource_error_insufficientStake hex hdur hstk,
   fun hex hdur hstk hres hnow =>
     reserveResource_error_alreadyReserved hex hdur hstk hres hnow,
   fun hex hdur hstk hact =>
     reserveResource_ok_iff.mpr ⟨hex, hdur, hstk, hact, rfl⟩⟩

/-- C2 witness: on the freshly created resource 0, a reserve at both
boundaries (`duration = MAX_RESERVATION_DURATION` and
`msgValue = RESERVATION_STAKE` exactly) succeeds. -/
theorem reserve_check_order_witness :
    (demoS1.resources 0).exists_ = true ∧
    reserveResource demoS1 1 demoStake 0 604800 0
      = .ok (reserveSuccState demoS1 1 demoStake 0 604800 0,
          reserveSuccEvents demoS1 1 demoStake 0 604800 0) :=
  ⟨rfl, (reserve_check_order demoS1 1 demoStake 0 604800 0).2.2.2.2 rfl
    (by decide) (by decide) (by decide)⟩

/-- C3: reserving a resource whose stored reservation record is expired
(`reservationEnd ≤ now`) but uncleared succeeds when the other
preconditions hold: the call emits `ReservationExpired` for the former
holder before `ResourceReserved` for the new one (the refund itself is
the external value transfer signalled by that event), installs the new
record `{reserver := sender, start := now, end := now + duration,
staked := msgValue}`, and decrements the former holder's stake total by
the previously staked amount. -/
theorem reserve_lazy_expiry {s : LedgerState} {sender : Account}
    {msgValue resourceId duration now : Nat}
    (hex : (s.resources resourceId).exists_ = true)
    (hres : (s.resources resourceId).isReserved = true)
    (hend : (s.resources resourceId).reservationEnd ≤ now)
    (hdur : duration ≤ MAX_RESERVATION_DURATION)
    (hstk : s.reservationStake ≤ msgValue) :
    reserveResource s sender msgValue resourceId duration now
      = .ok (reserveSuccState s sender msgValue resourceId duration now,
          [.ReservationExpired resourceId (s.resources resourceId).currentReserver,
           .ResourceReserved resourceId sender msgValue (now + duration)]) ∧
    (((reserveSuccState s sender msgValue resourceId duration now).resources
        resourceId).isReserved = true ∧
      ((reserveSuccState s sender msgValue resourceId duration now).resources
        resourceId).currentReserver = sender ∧
      ((reserveSuccState s sender msgValue resourceId duration now).resources
        resourceId).reservationStart = now ∧
      ((reserveSuccState s sender msgValue resourceId duration now).resources
        resourceId).reservationEnd = now + duration ∧
      ((reserveSuccState s sender msgValue resourceId duration now).resources
        resourceId).stakedAmount = msgValue) ∧
    ((s.resources resourceId).currentReserver ≠ sender →
      (reserveSuccState s sender msgValue resourceId duration now).totalStakedByUser
          (s.resources resourceId).currentReserver
        = s.totalStakedByUser (s.resources resourceId).currentReserver
          - (s.resources resourceId).stakedAmount) := by
  have hexp : hasExpiredReservation s resourceId now = true := by
    simp [hasExpiredReservation, hres, hend]
  have hact : ¬((s.resources resourceId).isReserved = true ∧
      now < (s.resources resourceId).reservationEnd) := by
    rintro ⟨-, hlt⟩
    omega
  refine ⟨?_, ?_, ?_⟩
  · rw [reserveResource_ok_iff]
    refine ⟨hex, hdur, hstk, hact, ?_⟩
    simp only [Prod.mk.injEq]
    refine ⟨trivial, ?_⟩
    unfold reserveSuccEvents
    rw [if_pos hexp]
    rfl
  · unfold reserveSuccState reservePreState
    rw [if_pos hexp]
    unfold installReservation
    simp [Function.update_same]
  · intro hne
    unfold reserveSuccState reservePreState
    rw [if_pos hexp]
    unfold installReservation autoReleaseExpiredReservation
    simp only [Function.update_noteq hne, Function.update_same]

/-- C3 witness: the spec's scenario — A (= 1) reserved resource 0 for
3600 s at t = 0 with a 0.1-ether stake; B (= 2) reserves it at t = 3601:
the call succeeds emitting `ReservationExpired{0, A}` then
`ResourceReserved{0, B, 0.1 ether, 7201}`, `currentReserver(0, 3601) = B`,
`totalStaked(A) = 0` and `totalStaked(B)` equals B's stake. -/
theorem reserve_lazy_expiry_witness :
    reserveResource demoS2 2 demoStake 0 3600 3601
      = .ok (reserveSuccState demoS2 2 demoStake 0 3600 3601,
          [.ReservationExpired 0 1, .ResourceReserved 0 2 demoStake 7201]) ∧
    getCurrentReserver demoS3 0 3601 = 2 ∧
    demoS3.totalStakedByUser 1 = 0 ∧
    demoS3.totalStakedByUser 2 = demoStake :=
  ⟨(reserve_lazy_expiry rfl rfl (by decide) (by decide) (by decide)).1,
   by decide, by decide, by decide⟩

/-- C4 counterexample: from `demoS2`, A (= 1) holds an expired uncleared
reservation on resource 0 with stake 0.1 ether and `totalStaked(A) = 0.1
ether`.  A's own successful `reserveResource` at t = 4000 lazily refunds
that old stake, and the subsequent `releaseResource` refunds exactly the
new stake — but `totalStaked(A)` ends at 0, not at its pre-reserve value
0.1 ether, refuting the claim's "leaves `totalStaked(A)` equal to its
value before the reserve" for this input. -/
theorem reserve_release_round_trip_cex :
    reserveResource demoS2 1 demoStake 0 3600 4000
      = .ok (demoC4b, [.ReservationExpired 0 1,
          .ResourceReserved 0 1 demoStake 7600]) ∧
    releaseResource demoC4b 1 0
      = .ok (demoC4c, demoStake, [.ResourceReleased 0 1 demoStake]) ∧
    demoS2.totalStakedByUser 1 = demoStake ∧
    demoC4c.totalStakedByUser 1 = 0 ∧
    demoC4c.totalStakedByUser 1 ≠ demoS2.totalStakedByUser 1 :=
  ⟨rfl, rfl, by decide, by decide, by decide⟩

/-- C4 (amended): a successful `reserveResource(id, A, d, s, t0)` followed
by `releaseResource(id, A)` succeeds, refunds exactly the staked amount
`s`, and leaves the resource in the Available state (record cleared);
`totalStakedByUser A` returns to its pre-reserve value provided the
record stored on `id` when the reserve ran was not held by A itself (the
lazy-expiry clear of A's own expired reservation would refund that older
stake as well).  `releaseResource` reads no clock, so this holds for a
release at any later time `t1 ≥ t0` with no intervening operation. -/
theorem reserve_release_round_trip {s : LedgerState} {A : Account}
    {msgValue resourceId duration t0 : Nat} {s1 : LedgerState}
    {evs : List Event}
    (hnotself : ¬((s.resources resourceId).isReserved = true ∧
      (s.resources resourceId).currentReserver = A))
    (hres : reserveResource s A msgValue resourceId duration t0 = .ok (s1, evs)) :
    ∃ s2 evs2, releaseResource s1 A resourceId = .ok (s2, msgValue, evs2) ∧
      (s2.resources resourceId).isReserved = false ∧
      (s2.resources resourceId).currentReserver = 0 ∧
      (s2.resources resourceId).reservationStart = 0 ∧
      (s2.resources resourceId).reservationEnd = 0 ∧
      (s2.resources resourceId).stakedAmount = 0 ∧
      s2.totalStakedByUser A = s.totalStakedByUser A := by
  rw [reserveResource_ok_iff] at hres
  obtain ⟨hex, hdur, hstk, hact, hpair⟩ := hres
  have hs1 : s1 = reserveSuccState s A msgValue resourceId duration t0 :=
    congrArg Prod.fst hpair
  subst hs1
  have hrec : (reserveSuccState s A msgValue resourceId duration t0).resources
      resourceId
      = { name := ((reservePreState s resourceId t0).resources resourceId).name
          category :=
            ((reservePreState s resourceId t0).resources resourceId).category
          isReserved := true
          currentReserver := A
          reservationStart := t0
          reservationEnd := t0 + duration
          stakedAmount := msgValue
          exists_ :=
            ((reservePreState s resourceId t0).resources resourceId).exists_ } := by
    unfold reserveSuccState installReservation
    simp only [Function.update_same]
  have hex1 : ((reservePreState s resourceId t0).resources resourceId).exists_
      = true := by
    unfold reservePreState
    split
    · unfold autoReleaseExpiredReservation
      simp only [Function.update_same]
      exact hex
    · exact hex
  have hpre : (reservePreState s resourceId t0).totalStakedByUser A
      = s.totalStakedByUser A := by
    unfold reservePreState
    split
    case isTrue hexp =>
      have hrsv : (s.resources resourceId).isReserved = true := by
        unfold hasExpiredReservation at hexp
        exact (Bool.and_eq_true_iff.mp hexp).1
      have hne : (s.resources resourceId).currentReserver ≠ A :=
        fun hc => hnotself ⟨hrsv, hc⟩
      unfold autoReleaseExpiredReservation
      simp only [Function.update_noteq (Ne.symm hne)]
    case isFalse hexp => rfl
  refine ⟨releaseSuccState (reserveSuccState s A msgValue resourceId duration t0)
      resourceId,
    [.ResourceReleased resourceId A msgValue], ?_, ?_, ?_, ?_, ?_, ?_, ?_⟩
  · rw [releaseResource_ok_iff]
    rw [hrec]
    exact ⟨hex1, rfl, rfl, rfl⟩
  · unfold releaseSuccState
    simp only [Function.update_same]
  · unfold releaseSuccState
    simp only [Function.update_same]
  · unfold releaseSuccState
    simp only [Function.update_same]
  · unfold releaseSuccState
    simp only [Function.update_same]
  · unfold releaseSuccState
    simp only [Function.update_same]
  · unfold releaseSuccState
    rw [hrec]
    simp only [Function.update_same]
    unfold reserveSuccState installReservation
    simp only [Function.update_same]
    rw [hpre]
    omega

/-- C4 witness: the round trip on the freshly created resource 0 — A
(= 1) reserves for 3600 s at t = 0 (producing `demoS2`) and releases;
the refund is exactly the stake, the record is cleared and A's stake
total returns to its value before the reserve. -/
theorem reserve_release_round_trip_witness :
    ¬((demoS1.resources 0).isReserved = true ∧
      (demoS1.resources 0).currentReserver = 1) ∧
    (∃ s2 evs2, releaseResource demoS2 1 0 = .ok (s2, demoStake, evs2) ∧
      (s2.resources 0).isReserved = false ∧
      (s2.resources 0).currentReserver = 0 ∧
      (s2.resources 0).reservationStart = 0 ∧
      (s2.resources 0).reservationEnd = 0 ∧
      (s2.resources 0).stakedAmount = 0 ∧
      s2.totalStakedByUser 1 = demoS1.totalStakedByUser 1) :=
  ⟨by decide,
   reserve_release_round_trip (by decide)
     (show reserveResource demoS1 1 demoStake 0 3600 0
       = .ok (demoS2, [.ResourceReserved 0 1 demoStake 3600]) from rfl)⟩

/-- C5 counterexample: `reserveResource` accepts `duration = 0` (the
source checks only `duration > MAX_RESERVATION_DURATION`), so the
reachable state `demoZ` stores a reservation record with
`reservationEnd = reservationStart`, refuting the claimed strict
`end > start`. -/
theorem reservation_bounds_cex :
    reserveResource demoS1 1 demoStake 0 0 5
      = .ok (demoZ, [.ResourceReserved 0 1 demoStake 5]) ∧
    Reachable demoZ ∧
    (demoZ.resources 0).isReserved = true ∧
    (demoZ.resources 0).reservationStart = 5 ∧
    (demoZ.resources 0).reservationEnd = 5 ∧
    ¬((demoZ.resources 0).reservationStart
      < (demoZ.resources 0).reservationEnd) :=
  ⟨rfl, reachable_demoZ, rfl, rfl, rfl, by decide⟩

/-- C5 (amended): in every reachable state every stored reservation
record satisfies `reservationStart ≤ reservationEnd` and
`reservationEnd - reservationStart ≤ MAX_RESERVATION_DURATION`; every
successful reserve stores `start = now` and `end = now + duration`, so
the inequality is strict exactly when `duration > 0` (the code places no
lower bound on `duration`). -/
theorem reservation_bounds :
    (∀ s : LedgerState, Reachable s → ∀ id,
      (s.resources id).isReserved = true →
      (s.resources id).reservationStart ≤ (s.resources id).reservationEnd ∧
      (s.resources id).reservationEnd - (s.resources id).reservationStart
        ≤ MAX_RESERVATION_DURATION) ∧
    (∀ (s : LedgerState) (sender : Account)
      (msgValue resourceId duration now : Nat) (s' : LedgerState)
      (evs : List Event),
      reserveResource s sender msgValue resourceId duration now
        = .ok (s', evs) →
      (s'.resources resourceId).reservationStart = now ∧
      (s'.resources resourceId).reservationEnd = now + duration) := by
  constructor
  · intro s hs id hres
    exact (reachable_goodState hs).2.2.2 id hres
  · intro s sender msgValue resourceId duration now s' evs h
    rw [reserveResource_ok_iff] at h
    have hs' : s' = reserveSuccState s sender msgValue resourceId duration now :=
      congrArg Prod.fst h.2.2.2.2
    subst hs'
    unfold reserveSuccState installReservation
    simp [Function.update_same]

/-- C5 witness: the stored record of `demoS2` (a 3600-second reservation)
satisfies the amended bounds, and the concrete reserve that produced it
stores `start = 0`, `end = 0 + 3600`. -/
theorem reservation_bounds_witness :
    Reachable demoS2 ∧ (demoS2.resources 0).isReserved = true ∧
    ((demoS2.resources 0).reservationStart ≤ (demoS2.resources 0).reservationEnd ∧
      (demoS2.resources 0).reservationEnd - (demoS2.resources 0).reservationStart
        ≤ MAX_RESERVATION_DURATION) ∧
    ((demoS2.resources 0).reservationStart = 0 ∧
      (demoS2.resources 0).reservationEnd = 0 + 3600) :=
  ⟨reachable_demoS2, rfl,
   reservation_bounds.1 demoS2 reachable_demoS2 0 rfl,
   reservation_bounds.2 demoS1 1 demoStake 0 3600 0 demoS2
     [.ResourceReserved 0 1 demoStake 3600] rfl⟩

/-- C6 counterexample: while A (= 1) holds resource 0 in `demoS2`,
C (= 3) calls release.  The call fails with `NotResourceReserver(0, 3)` —
the error carries the **caller**, not the actual reserver A, refuting the
claim's `NotReserver{actualReserver}` payload.  (The source reverts
`NotResourceReserver(resourceId, _msgSender())`.) -/
theorem release_semantics_cex :
    (demoS2.resources 0).currentReserver = 1 ∧
    releaseResource demoS2 3 0 = .error (.NotResourceReserver 0 3) ∧
    releaseResource demoS2 3 0 ≠ .error (.NotResourceReserver 0 1) := by
  refine ⟨rfl, rfl, ?_⟩
  intro h
  rw [show releaseResource demoS2 3 0 = .error (.NotResourceReserver 0 3)
    from rfl] at h
  rw [Except.error.injEq] at h
  exact absurd h (by decide)

/-- C6 (amended): `releaseResource` fails with `ResourceDoesNotExist` on a
missing resource, `ResourceNotReserved` when no uncleared record is
present, and `NotResourceReserver` — carrying the **caller** — when the
caller differs from the stored reserver; it succeeds whenever an
uncleared record exists and the caller equals the stored reserver,
refunding the staked amount and clearing the record.  The function reads
no clock, so success also covers logically-expired records; an error
returns no state (EVM revert), so a non-reserver's attempt changes
nothing. -/
theorem release_semantics (s : LedgerState) (sender : Account)
    (resourceId : Nat) :
    ((s.resources resourceId).exists_ = false →
      releaseResource s sender resourceId
        = .error (.ResourceDoesNotExist resourceId)) ∧
    ((s.resources resourceId).exists_ = true →
      (s.resources resourceId).isReserved = false →
      releaseResource s sender resourceId
        = .error (.ResourceNotReserved resourceId)) ∧
    ((s.resources resourceId).exists_ = true →
      (s.resources resourceId).isReserved = true →
      (s.resources resourceId).currentReserver ≠ sender →
      releaseResource s sender resourceId
        = .error (.NotResourceReserver resourceId sender)) ∧
    ((s.resources resourceId).exists_ = true →
      (s.resources resourceId).isReserved = true →
      (s.resources resourceId).currentReserver = sender →
      releaseResource s sender resourceId
        = .ok (releaseSuccState s resourceId,
            (s.resources resourceId).stakedAmount,
            [.ResourceReleased resourceId sender
              (s.resources resourceId).stakedAmount]) ∧
      ((releaseSuccState s resourceId).resources resourceId).isReserved
        = false) := by
  refine ⟨releaseResource_error_notFound,
    releaseResource_error_notReserved,
    releaseResource_error_notReserver, ?_⟩
  intro hex hres hown
  constructor
  · rw [releaseResource_ok_iff, hown]
    exact ⟨hex, hres, rfl, rfl⟩
  · unfold releaseSuccState
    simp [Function.update_same]

/-- C6 witness: the three hypotheses discharged on `demoS2` — the holder
A (= 1) releasing resource 0 succeeds, refunding the 0.1-ether stake. -/
theorem release_semantics_witness :
    (demoS2.resources 0).exists_ = true ∧
    (demoS2.resources 0).isReserved = true ∧
    (demoS2.resources 0).currentReserver = 1 ∧
    releaseResource demoS2 1 0
      = .ok (releaseSuccState demoS2 0, demoStake,
          [.ResourceReleased 0 1 demoStake]) :=
  ⟨rfl, rfl, rfl, ((release_semantics demoS2 1 0).2.2.2 rfl rfl rfl).1⟩

/-- C7: release is not repeatable — after a successful
`releaseResource(id, A)`, an immediately following release of the same
resource by any caller fails with `ResourceNotReserved` and, the error
being an EVM revert (no state returned in this model), performs no
refund and no state change; likewise every error result of
`reserveResource`/`releaseResource` returns no state. -/
theorem release_not_repeatable {s : LedgerState} {sender : Account}
    {resourceId : Nat} {s' : LedgerState} {refund : Nat} {evs : List Event}
    (h : releaseResource s sender resourceId = .ok (s', refund, evs)) :
    ∀ sender2 : Account, releaseResource s' sender2 resourceId
      = .error (.ResourceNotReserved resourceId) := by
  intro sender2
  rw [releaseResource_ok_iff] at h
  obtain ⟨hex, hres, hown, hpair⟩ := h
  have hs' : s' = releaseSuccState s resourceId := congrArg Prod.fst hpair
  subst hs'
  have hex' : ((releaseSuccState s resourceId).resources resourceId).exists_
      = true := by
    unfold releaseSuccState
    simp only [Function.update_same]
    exact hex
  have hres' : ((releaseSuccState s resourceId).resources resourceId).isReserved
      = false := by
    unfold releaseSuccState
    simp [Function.update_same]
  exact releaseResource_error_notReserved hex' hres'

/-- C7 witness: A (= 1) releases resource 0 from `demoS2`; the immediate
second release fails with `ResourceNotReserved`. -/
theorem release_not_repeatable_witness :
    releaseResource demoS2 1 0
      = .ok (demoR2, demoStake, [.ResourceReleased 0 1 demoStake]) ∧
    releaseResource demoR2 1 0 = .error (.ResourceNotReserved 0) :=
  ⟨rfl, release_not_repeatable (show releaseResource demoS2 1 0
    = .ok (demoR2, demoStake, [.ResourceReleased 0 1 demoStake]) from rfl) 1⟩

/-- C8: the reservation history is an append-only chronological log —
every successful `reserveResource` appends exactly the caller to the
history of the reserved resource and changes no other history; successful
`releaseResource` and `createResource` leave every history unchanged
(queries are read-only by construction); and across any successful call
every history only grows by a suffix, so its length never decreases. -/
theorem reservation_history_append_only :
    (∀ (s : LedgerState) (sender : Account)
      (msgValue resourceId duration now : Nat) (s' : LedgerState)
      (evs : List Event),
      reserveResource s sender msgValue resourceId duration now
        = .ok (s', evs) →
      s'.reservationHistory resourceId
        = s.reservationHistory resourceId ++ [sender] ∧
      ∀ j, j ≠ resourceId →
        s'.reservationHistory j = s.reservationHistory j) ∧
    (∀ (s : LedgerState) (sender : Account) (resourceId : Nat)
      (s' : LedgerState) (refund : Nat) (evs : List Event),
      releaseResource s sender resourceId = .ok (s', refund, evs) →
      s'.reservationHistory = s.reservationHistory) ∧
    (∀ (s : LedgerState) (sender : Account) (name : String)
      (category : ResourceCategory) (initialSupply : Nat)
      (recipient : Account) (s' : LedgerState) (rid : Nat)
      (evs : List Event),
      createResource s sender name category initialSupply recipient
        = .ok (s', rid, evs) →
      s'.reservationHistory = s.reservationHistory) ∧
    (∀ s s' : LedgerState, Step s s' → ∀ j, ∃ t,
      s'.reservationHistory j = s.reservationHistory j ++ t) := by
  have hres : ∀ (s : LedgerState) (sender : Account)
      (msgValue resourceId duration now : Nat) (s' : LedgerState)
      (evs : List Event),
      reserveResource s sender msgValue resourceId duration now
        = .ok (s', evs) →
      s'.reservationHistory resourceId
        = s.reservationHistory resourceId ++ [sender] ∧
      ∀ j, j ≠ resourceId →
        s'.reservationHistory j = s.reservationHistory j := by
    intro s sender msgValue resourceId duration now s' evs h
    rw [reserveResource_ok_iff] at h
    have hs' : s' = reserveSuccState s sender msgValue resourceId duration now :=
      congrArg Prod.fst h.2.2.2.2
    subst hs'
    have hpre : (reservePreState s resourceId now).reservationHistory
        = s.reservationHistory := by
      unfold reservePreState
      split
      · rfl
      · rfl
    constructor
    · unfold reserveSuccState installReservation
      simp only [Function.update_same, hpre]
    · intro j hj
      unfold reserveSuccState installReservation
      simp only [Function.update_noteq hj, hpre]
  have hrel : ∀ (s : LedgerState) (sender : Account) (resourceId : Nat)
      (s' : LedgerState) (refund : Nat) (evs : List Event),
      releaseResource s sender resourceId = .ok (s', refund, evs) →
      s'.reservationHistory = s.reservationHistory := by
    intro s sender resourceId s' refund evs h
    rw [releaseResource_ok_iff] at h
    have hs' : s' = releaseSuccState s resourceId := congrArg Prod.fst h.2.2.2
    subst hs'
    rfl
  have hcr : ∀ (s : LedgerState) (sender : Account) (name : String)
      (category : ResourceCategory) (initialSupply : Nat)
      (recipient : Account) (s' : LedgerState) (rid : Nat)
      (evs : List Event),
      createResource s sender name category initialSupply recipient
        = .ok (s', rid, evs) →
      s'.reservationHistory = s.reservationHistory := by
    intro s sender name category initialSupply recipient s' rid evs h
    exact (createResource_ok_spec h).2.2.2.2.2.2.1
  refine ⟨hres, hrel, hcr, ?_⟩
  intro s s' hstep j
  cases hstep with
  | create h =>
    rename_i sender name category initialSupply recipient rid evs
    exact ⟨[], by
      rw [hcr s sender name category initialSupply recipient s' rid evs h,
        List.append_nil]⟩
  | reserve h =>
    rename_i sender msgValue resourceId duration now evs
    obtain ⟨h1, h2⟩ := hres s sender msgValue resourceId duration now s' evs h
    by_cases hj : j = resourceId
    · subst hj
      exact ⟨[sender], h1⟩
    · exact ⟨[], by rw [h2 j hj, List.append_nil]⟩
  | release h =>
    rename_i sender resourceId refund evs
    exact ⟨[], by rw [hrel s sender resourceId s' refund evs h, List.append_nil]⟩

/-- C8 witness: the history of resource 0 after A reserves (`demoS2`), A
releases (`demoR2`) and B reserves (`demoR3`) is exactly `[A, B] = [1, 2]`
in that order; the reserve from `demoR2` appended exactly B. -/
theorem reservation_history_append_only_witness :
    demoR2.reservationHistory 0 = [1] ∧
    reserveResource demoR2 2 demoStake 0 3600 10
      = .ok (demoR3, [.ResourceReserved 0 2 demoStake 3610]) ∧
    demoR3.reservationHistory 0 = demoR2.reservationHistory 0 ++ [2] ∧
    demoR3.reservationHistory 0 = [1, 2] :=
  ⟨by decide,
   rfl,
   (reservation_history_append_only.1 demoR2 2 demoStake 0 3600 10 demoR3
     [.ResourceReserved 0 2 demoStake 3610] rfl).1,
   by decide⟩

/-- C9: on a resource id that was never created (`exists_ = false` — and
creation marks `exists_` permanently), the read-only queries do not fail
uniformly: in every reachable state `isResourceReserved` returns `false`,
`getCurrentReserver` returns `0` (`address(0)`, i.e. none) and
`getRemainingReservationTime` returns `0`, all without an error, at every
timestamp; only `getResource` reports `ResourceDoesNotExist`. -/
theorem queries_on_nonexistent {s : LedgerState} {resourceId : Nat}
    (hs : Reachable s) (hex : (s.resources resourceId).exists_ = false) :
    (∀ now, isResourceReserved s resourceId now = false) ∧
    (∀ now, getCurrentReserver s resourceId now = 0) ∧
    (∀ now, getRemainingReservationTime s resourceId now = 0) ∧
    getResource s resourceId = .error (.ResourceDoesNotExist resourceId) := by
  have hdef := (reachable_goodState hs).1 resourceId hex
  refine ⟨?_, ?_, ?_, ?_⟩
  · intro now
    unfold isResourceReserved
    rw [hdef]
    rfl
  · intro now
    unfold getCurrentReserver
    rw [hdef]
    simp [defaultResource]
  · intro now
    unfold getRemainingReservationTime
    rw [hdef]
    simp [defaultResource]
  · unfold getResource
    rw [if_pos hex]

/-- C9 witness: the queries evaluated at the never-created id 5 of
`demoS1` at `now = 0`. -/
theorem queries_on_nonexistent_witness :
    (demoS1.resources 5).exists_ = false ∧
    isResourceReserved demoS1 5 0 = false ∧
    getCurrentReserver demoS1 5 0 = 0 ∧
    getRemainingReservationTime demoS1 5 0 = 0 ∧
    getResource demoS1 5 = .error (.ResourceDoesNotExist 5) :=
  ⟨rfl,
   (@queries_on_nonexistent demoS1 5 reachable_demoS1 rfl).1 0,
   (@queries_on_nonexistent demoS1 5 reachable_demoS1 rfl).2.1 0,
   (@queries_on_nonexistent demoS1 5 reachable_demoS1 rfl).2.2.1 0,
   (@queries_on_nonexistent demoS1 5 reachable_demoS1 rfl).2.2.2⟩

/-- C10: there is no renewal or extension path — while a resource holds
an active reservation (`isReserved` and `now < reservationEnd`), every
`reserveResource` call fails, by any caller including the current holder
(the caller is universally quantified, so `sender` may equal
`currentReserver`); and whenever the call reaches the activity check
(resource exists, duration and stake valid) the error is
`ResourceAlreadyReserved` carrying the current holder. -/
theorem no_renewal_while_active {s : LedgerState} {sender : Account}
    {msgValue resourceId duration now : Nat}
    (hres : (s.resources resourceId).isReserved = true)
    (hnow : now < (s.resources resourceId).reservationEnd) :
    (∀ r, reserveResource s sender msgValue resourceId duration now ≠ .ok r) ∧
    ((s.resources resourceId).exists_ = true →
      duration ≤ MAX_RESERVATION_DURATION →
      s.reservationStake ≤ msgValue →
      reserveResource s sender msgValue resourceId duration now
        = .error (.ResourceAlreadyReserved resourceId
            (s.resources resourceId).currentReserver)) := by
  constructor
  · intro r hok
    rw [reserveResource_ok_iff] at hok
    exact hok.2.2.2.1 ⟨hres, hnow⟩
  · intro hex hdur hstk
    exact reserveResource_error_alreadyReserved hex hdur hstk hres hnow

/-- C10 witness: in `demoS2` the holder A (= 1) itself retries a reserve
of resource 0 at `now = 100` (reservation active until 3600) and fails
with `ResourceAlreadyReserved(0, 1)`. -/
theorem no_renewal_while_active_witness :
    (demoS2.resources 0).isReserved = true ∧
    (demoS2.resources 0).currentReserver = 1 ∧
    reserveResource demoS2 1 demoStake 0 3600 100
      = .error (.ResourceAlreadyReserved 0 1) :=
  ⟨rfl, rfl, (no_renewal_while_active rfl (by decide)).2 rfl (by decide)
    (by decide)⟩

end CampusResourceNFT
